import Mathlib

/-!
Verification of the `rununtil` package (rununtil.go): a process lifecycle
coordinator.  The core pieces embedded here:

* `canceller` — a mutex-protected map from string identifiers to one-shot
  notification channels (`signals map[string]chan struct{}`), with
  `addChannel` and `cancelAll` operations.  The mutex serializes the
  operations; each operation is therefore modelled as an atomic function on
  the registry state.  Channels are identified by naturals; the set of
  channels already closed is carried alongside the map, as a record of
  close events (Go panics on closing a closed channel, so `close` is
  modelled as a fallible operation returning `Option`).
* `AwaitKillSignals` — subscribes to OS signal delivery, registers a fresh
  finish channel under a fresh uuid, invokes the runner functions in order
  (each pushing its shutdown function on the defer stack), blocks on a
  select between the OS signal channel and the finish channel, then runs
  the deferred shutdowns (LIFO) and returns.  The execution is modelled as
  a function producing the new process state and a trace of events; which
  of the two raced event sources fires is an input from the environment.
* The wrappers `AwaitKillSignal`, `KillSignal`, `Signals` and `CancelAll`.

External collaborators are modelled at their boundary: the uuid package
(`uuid.New()`) as a fresh-per-call supply of string identifiers, and the Go
standard library `signal.Notify` via `notifyRelays` (its documented
behaviour: with an empty signal list, all incoming signals are relayed).
-/

/-- An OS signal, identified by its number. -/
abbrev OSSignal := Nat

/-- SIGINT signal number. -/
def SIGINT : OSSignal := 2

/-- SIGTERM signal number. -/
def SIGTERM : OSSignal := 15

/-- The canceller struct of rununtil.go: `signals map[string]chan struct{}`.
The map is modelled as an association list with no duplicate keys (the
no-duplicate property is part of the registry invariant, not of the type).
A channel is identified by a natural number.  The mutex field is not
modelled: it serializes the operations, which are therefore atomic
functions here. -/
structure Canceller where
  signals : List (String × Nat)
deriving Repr, DecidableEq

/-- Go map assignment `m[key] = c`: overwrite the entry for `key` when
present, otherwise add a new entry. -/
def mapInsert (key : String) (c : Nat) : List (String × Nat) → List (String × Nat)
  | [] => [(key, c)]
  | (k, v) :: rest => if k = key then (key, c) :: rest else (k, v) :: mapInsert key c rest

/-- Go map lookup `m[key]`. -/
def lookupKey (key : String) : List (String × Nat) → Option Nat
  | [] => none
  | (k, v) :: rest => if k = key then some v else lookupKey key rest

/-- `canceller.addChannel`: under the lock, `canc.signals[key] = c`. -/
def addChannel (key : String) (c : Nat) (canc : Canceller) : Canceller :=
  { signals := mapInsert key c canc.signals }

/-- Close a channel.  Go panics when a channel is closed twice, so closing
is fallible: `none` models the panic.  `closed` is the record of close
events (most recent first). -/
def closeChan (c : Nat) (closed : List Nat) : Option (List Nat) :=
  if c ∈ closed then none else some (c :: closed)

/-- The loop body of `canceller.cancelAll`: for each entry, close its
channel and delete the entry.  Go map iteration order is unspecified; the
model iterates in list order, and every conclusion drawn below is
order-independent. -/
def cancelAllAux : List (String × Nat) → List Nat → Option (List Nat)
  | [], closed => some closed
  | (_, c) :: rest, closed =>
    match closeChan c closed with
    | none => none
    | some closed2 => cancelAllAux rest closed2

/-- `canceller.cancelAll`: under the lock, close every registered channel
and delete every entry.  Returns the new (empty-map) canceller and the new
close record, or `none` if some close panicked. -/
def cancelAll (canc : Canceller) (closed : List Nat) : Option (Canceller × List Nat) :=
  match cancelAllAux canc.signals closed with
  | none => none
  | some closed2 => some (⟨[]⟩, closed2)

/-- Key list of a registry map. -/
def keysOf (m : List (String × Nat)) : List String := m.map Prod.fst

/-- Channel list of a registry map. -/
def chansOf (m : List (String × Nat)) : List Nat := m.map Prod.snd

theorem mapInsert_of_not_mem_keys (key : String) (c : Nat) (m : List (String × Nat))
    (h : key ∉ keysOf m) : mapInsert key c m = m ++ [(key, c)] := by
  induction m with
  | nil => rfl
  | cons p rest ih =>
    obtain ⟨k, v⟩ := p
    simp only [keysOf, List.map_cons, List.mem_cons] at h
    push_neg at h
    rw [mapInsert, if_neg (fun hh : k = key => h.1 hh.symm), ih h.2]
    rfl

theorem lookupKey_mapInsert_self (key : String) (c : Nat) (m : List (String × Nat)) :
    lookupKey key (mapInsert key c m) = some c := by
  induction m with
  | nil => simp [mapInsert, lookupKey]
  | cons p rest ih =>
    obtain ⟨k, v⟩ := p
    by_cases hk : k = key
    · simp [mapInsert, lookupKey, hk]
    · simp [mapInsert, lookupKey, hk, ih]

theorem lookupKey_mapInsert_other (k key : String) (c : Nat) (m : List (String × Nat))
    (h : k ≠ key) : lookupKey k (mapInsert key c m) = lookupKey k m := by
  induction m with
  | nil =>
    simp only [mapInsert, lookupKey]
    rw [if_neg (fun hh : key = k => h hh.symm)]
  | cons p rest ih =>
    obtain ⟨k2, v⟩ := p
    by_cases hk : k2 = key
    · subst hk
      simp only [mapInsert, if_pos rfl, lookupKey]
      rw [if_neg (fun hh => h hh.symm), if_neg (fun hh => h hh.symm)]
    · simp only [mapInsert, if_neg hk, lookupKey]
      by_cases hk2 : k2 = k
      · rw [if_pos hk2, if_pos hk2]
      · rw [if_neg hk2, if_neg hk2, ih]

/-- When every channel in the map is distinct and not yet closed, the
cancel loop closes exactly the registered channels, prepending them (in
iteration order) to the close record. -/
theorem cancelAllAux_eq (entries : List (String × Nat)) (closed : List Nat)
    (hnd : (chansOf entries).Nodup) (hnc : ∀ p ∈ entries, p.2 ∉ closed) :
    cancelAllAux entries closed = some ((chansOf entries).reverse ++ closed) := by
  induction entries generalizing closed with
  | nil => simp [cancelAllAux, chansOf]
  | cons p rest ih =>
    obtain ⟨k, c⟩ := p
    simp only [chansOf, List.map_cons, List.nodup_cons] at hnd
    have hc : c ∉ closed := hnc (k, c) (List.mem_cons_self _ _)
    simp only [cancelAllAux, closeChan, if_neg hc]
    rw [ih (c :: closed) hnd.2 ?_]
    · simp [chansOf, List.reverse_cons, List.append_assoc]
    · intro q hq
      simp only [List.mem_cons]
      push_neg
      constructor
      · intro hqc
        exact hnd.1 (hqc ▸ List.mem_map_of_mem Prod.snd hq)
      · exact hnc q (List.mem_cons_of_mem _ hq)

/-- The identifier supply.  The source calls `uuid.New()` (the external
github.com/google/uuid package, specified at its boundary as a fresh
random identifier per call); the model draws the n-th identifier of the
process as a string determined injectively by a counter. -/
def uuidModel (n : Nat) : String := String.mk (List.replicate n 'u')

theorem uuidModel_injective (a b : Nat) (h : uuidModel a = uuidModel b) : a = b := by
  have hd : List.replicate a 'u' = List.replicate b 'u' := congrArg String.data h
  have hl := congrArg List.length hd
  simpa using hl

/-- Process-wide state: the global canceller (initialised by `init()` to an
empty map), the record of closed channels, and the two fresh supplies —
the next channel made by `make(chan struct{})` and the counter feeding
`uuidModel`. -/
structure ProcState where
  canc : Canceller
  closed : List Nat
  nextChan : Nat
  nextKey : Nat
deriving Repr, DecidableEq

/-- The state after the package `init()`: empty map, nothing closed yet. -/
def initialState : ProcState :=
  { canc := ⟨[]⟩, closed := [], nextChan := 0, nextKey := 0 }

/-- Lines 141-143 of AwaitKillSignals: `finish := make(chan struct{})`,
`uuid := uuid.New()`, `globalCanceller.addChannel(uuid.String(), finish)`.
Returns the new state, the identifier and the channel. -/
def registerChannel (s : ProcState) : ProcState × String × Nat :=
  let key := uuidModel s.nextKey
  let finish := s.nextChan
  ({ canc := addChannel key finish s.canc
     closed := s.closed
     nextChan := s.nextChan + 1
     nextKey := s.nextKey + 1 }, key, finish)

/-- `CancelAll` / `canceller.cancelAll` acting on the process state. -/
def procCancelAll (s : ProcState) : Option ProcState :=
  match cancelAll s.canc s.closed with
  | none => none
  | some r => some { canc := r.1, closed := r.2, nextChan := s.nextChan, nextKey := s.nextKey }

/-- The registry operations the package ever performs on the global
canceller: registration of a fresh channel under a fresh identifier
(from `AwaitKillSignals`) and `CancelAll`. -/
inductive RegOp where
  | register
  | cancel
deriving Repr, DecidableEq

/-- Apply one registry operation; `none` models a panic. -/
def applyOp : RegOp → ProcState → Option ProcState
  | RegOp.register, s => some (registerChannel s).1
  | RegOp.cancel, s => procCancelAll s

/-- The registry invariant of the spec, plus the bookkeeping facts that
make freshness explicit: keys are pairwise distinct (it is a map), the
channels held by entries are pairwise distinct, every entry holds a
channel that has not yet been notified, no channel has ever been closed
twice, every channel ever seen is below the fresh-channel supply, and
every key in the map came from the identifier supply. -/
def ProcInv (s : ProcState) : Prop :=
  (keysOf s.canc.signals).Nodup ∧
  (chansOf s.canc.signals).Nodup ∧
  (∀ p ∈ s.canc.signals, p.2 ∉ s.closed) ∧
  s.closed.Nodup ∧
  (∀ p ∈ s.canc.signals, p.2 < s.nextChan) ∧
  (∀ c ∈ s.closed, c < s.nextChan) ∧
  (∀ p ∈ s.canc.signals, ∃ n, n < s.nextKey ∧ p.1 = uuidModel n)

instance (s : ProcState) : Decidable (ProcInv s) := by
  unfold ProcInv
  infer_instance

/-- Which of the two raced event sources fires the select at lines
151-156: a delivered OS signal on channel `c`, or the finish channel
closed by a cancelAll. -/
inductive WakeSource where
  | osSignal (sig : OSSignal)
  | finishChannel
deriving Repr, DecidableEq

/-- Outcome of the `signal.Notify` subscription at line 139.  The call has
no in-band error; `failed` models the abstract fatal startup condition of
the spec (a panic inside the subscription), which aborts the invocation
before the registration and the runner loop. -/
inductive SubResult where
  | ok
  | failed
deriving Repr, DecidableEq

/-- Observable events of one AwaitKillSignals invocation.  Runner
functions are opaque to the orchestrator; the i-th runner is represented
by a label, and its shutdown function by the same label. -/
inductive Event where
  | subscribed (sigs : List OSSignal)
  | subscribeFailed
  | registered (key : String) (c : Nat)
  | runnerInvoked (r : Nat)
  | woke (w : WakeSource)
  | shutdownCalled (r : Nat)
  | returned
deriving Repr, DecidableEq

/-- Whether `signal.Notify(c, subscribed...)` relays an incoming signal to
the channel.  Modelled from the documented boundary of the Go standard
library: if no signals are provided, all incoming signals are relayed. -/
def notifyRelays (subscribed : List OSSignal) (incoming : OSSignal) : Bool :=
  subscribed.isEmpty || subscribed.contains incoming

/-- Whether a wake source can actually fire the select of an invocation
that subscribed to `sigs`: an OS signal wakes it only if the subscription
relays it; the finish channel wakes it when cancelAll closes it. -/
def canWake (sigs : List OSSignal) : WakeSource → Bool
  | WakeSource.osSignal g => notifyRelays sigs g
  | WakeSource.finishChannel => true

/-- The loop at lines 145-148: `for _, runner := range runnerFuncs {
shutdown := runner(); defer shutdown() }`.  Invokes each runner in order
and pushes its shutdown function on the defer stack (Go defers run in
last-in-first-out order, so pushing is to the front).  Returns the runner
invocation events and the final defer stack (front = runs first). -/
def runnerLoop : List Nat → List Nat → List Event × List Nat
  | [], defers => ([], defers)
  | r :: rest, defers =>
    let tail := runnerLoop rest (r :: defers)
    (Event.runnerInvoked r :: tail.1, tail.2)

/-- `AwaitKillSignals(signals, runnerFuncs...)` as a state transformer
producing an event trace.  On the ok path: subscribe, register the finish
channel under a fresh uuid, run the runner loop, block on the select until
`wake` fires, then run the deferred shutdowns and return.  On the failed
path the invocation aborts before registering or starting any runner (no
defers have been pushed yet, so none run). -/
def AwaitKillSignals (sub : SubResult) (sigs : List OSSignal) (runnerFuncs : List Nat)
    (wake : WakeSource) (s : ProcState) : ProcState × List Event :=
  match sub with
  | SubResult.failed => (s, [Event.subscribeFailed])
  | SubResult.ok =>
    let reg := registerChannel s
    let rl := runnerLoop runnerFuncs []
    (reg.1,
      Event.subscribed sigs :: Event.registered reg.2.1 reg.2.2 ::
        (rl.1 ++ Event.woke wake ::
          (rl.2.map Event.shutdownCalled ++ [Event.returned])))

/-- `AwaitKillSignal(runnerFuncs...)`: delegates to AwaitKillSignals with
the default signal set SIGINT, SIGTERM (line 131). -/
def AwaitKillSignal (sub : SubResult) (runnerFuncs : List Nat)
    (wake : WakeSource) (s : ProcState) : ProcState × List Event :=
  AwaitKillSignals sub [SIGINT, SIGTERM] runnerFuncs wake s

/-- Deprecated `KillSignal(runner)`: delegates to AwaitKillSignal
(line 172). -/
def KillSignal (sub : SubResult) (runner : Nat)
    (wake : WakeSource) (s : ProcState) : ProcState × List Event :=
  AwaitKillSignal sub [runner] wake s

/-- Deprecated `Signals(runner, signals...)`: delegates to
AwaitKillSignals (line 179). -/
def Signals (sub : SubResult) (runner : Nat) (sigs : List OSSignal)
    (wake : WakeSource) (s : ProcState) : ProcState × List Event :=
  AwaitKillSignals sub sigs [runner] wake s

/-- The default signal set of the spec (`await_kill_signal` watches the
standard interrupt and terminate signals). -/
def defaultSignalSet : List OSSignal := [SIGINT, SIGTERM]

/-- Specification-side form of `await_kill_signal(runners...)`, written
from the spec words: equivalent to
`await_kill_signals(default_signal_set, runners...)`. -/
def awaitKillSignalSpec (sub : SubResult) (runnerFuncs : List Nat)
    (wake : WakeSource) (s : ProcState) : ProcState × List Event :=
  AwaitKillSignals sub defaultSignalSet runnerFuncs wake s

/-- Sequence of runner labels invoked, in trace order. -/
def runnerSeq (tr : List Event) : List Nat :=
  tr.filterMap fun e =>
    match e with
    | Event.runnerInvoked r => some r
    | _ => none

/-- Sequence of shutdown-callback labels executed, in trace order. -/
def shutdownSeq (tr : List Event) : List Nat :=
  tr.filterMap fun e =>
    match e with
    | Event.shutdownCalled r => some r
    | _ => none

theorem runnerLoop_eq (rs ds : List Nat) :
    runnerLoop rs ds = (rs.map Event.runnerInvoked, rs.reverse ++ ds) := by
  induction rs generalizing ds with
  | nil => simp [runnerLoop]
  | cons r rest ih =>
    simp only [runnerLoop, ih (r :: ds), List.map_cons, List.reverse_cons, List.append_assoc,
      List.singleton_append, Prod.mk.injEq]

/-- The trace of a successful AwaitKillSignals invocation, flattened. -/
theorem AwaitKillSignals_ok_trace (sigs runnerFuncs : List Nat) (wake : WakeSource)
    (s : ProcState) :
    (AwaitKillSignals SubResult.ok sigs runnerFuncs wake s).2 =
      Event.subscribed sigs ::
        Event.registered (uuidModel s.nextKey) s.nextChan ::
          (runnerFuncs.map Event.runnerInvoked ++
            Event.woke wake ::
              (runnerFuncs.reverse.map Event.shutdownCalled ++ [Event.returned])) := by
  simp [AwaitKillSignals, registerChannel, runnerLoop_eq]

/-- The state effect of a successful AwaitKillSignals invocation is
exactly the registration. -/
theorem AwaitKillSignals_ok_state (sigs runnerFuncs : List Nat) (wake : WakeSource)
    (s : ProcState) :
    (AwaitKillSignals SubResult.ok sigs runnerFuncs wake s).1 = (registerChannel s).1 := by
  rfl

theorem runnerSeq_append (a b : List Event) :
    runnerSeq (a ++ b) = runnerSeq a ++ runnerSeq b := by
  simp [runnerSeq, List.filterMap_append]

theorem shutdownSeq_append (a b : List Event) :
    shutdownSeq (a ++ b) = shutdownSeq a ++ shutdownSeq b := by
  simp [shutdownSeq, List.filterMap_append]

theorem runnerSeq_map_runnerInvoked (rs : List Nat) :
    runnerSeq (rs.map Event.runnerInvoked) = rs := by
  induction rs with
  | nil => rfl
  | cons r rest ih => simpa [runnerSeq, List.filterMap_cons] using ih

theorem runnerSeq_map_shutdownCalled (rs : List Nat) :
    runnerSeq (rs.map Event.shutdownCalled) = [] := by
  induction rs with
  | nil => rfl
  | cons r rest ih => simp [runnerSeq, List.filterMap_cons, ih]

theorem shutdownSeq_map_shutdownCalled (rs : List Nat) :
    shutdownSeq (rs.map Event.shutdownCalled) = rs := by
  induction rs with
  | nil => rfl
  | cons r rest ih => simpa [shutdownSeq, List.filterMap_cons] using ih

theorem shutdownSeq_map_runnerInvoked (rs : List Nat) :
    shutdownSeq (rs.map Event.runnerInvoked) = [] := by
  induction rs with
  | nil => rfl
  | cons r rest ih => simp [shutdownSeq, List.filterMap_cons, ih]

theorem count_event_map (g : Nat → Event) (e : Event) (hg : ∀ r, ¬ g r = e)
    (rs : List Nat) : (rs.map g).count e = 0 := by
  rw [List.count_eq_zero]
  intro hmem
  obtain ⟨r, _, hr⟩ := List.mem_map.mp hmem
  exact hg r hr

/-- C2: cancelAll closes each currently registered notification channel
exactly once (its close count rises by one, every other channel's count is
unchanged) and removes every entry, leaving the registry map empty; on an
empty registry it is a no-op producing no error. -/
theorem cancelAll_closes_each_once_and_empties (canc : Canceller) (closed : List Nat)
    (hnd : (chansOf canc.signals).Nodup)
    (hnc : ∀ p ∈ canc.signals, p.2 ∉ closed) :
    ∃ closed2,
      cancelAll canc closed = some (⟨[]⟩, closed2)
      ∧ (∀ c ∈ chansOf canc.signals, closed2.count c = closed.count c + 1)
      ∧ (∀ c, c ∉ chansOf canc.signals → closed2.count c = closed.count c)
      ∧ (canc.signals = [] → cancelAll canc closed = some (canc, closed)) := by
  obtain ⟨sigs⟩ := canc
  refine ⟨(chansOf sigs).reverse ++ closed, ?_, ?_, ?_, ?_⟩
  · simp only [cancelAll]
    rw [cancelAllAux_eq sigs closed hnd hnc]
  · intro c hc
    rw [List.count_append, List.count_reverse,
      List.count_eq_one_of_mem hnd hc, Nat.add_comm]
  · intro c hc
    rw [List.count_append, List.count_reverse, List.count_eq_zero.mpr hc, Nat.zero_add]
  · intro hsigs
    subst hsigs
    simp [cancelAll, cancelAllAux]

/-- Witness for C2 at a concrete two-entry registry. -/
theorem cancelAll_closes_each_once_and_empties_witness :
    ((chansOf (Canceller.mk [("a", 0), ("b", 1)]).signals).Nodup
      ∧ ∀ p ∈ (Canceller.mk [("a", 0), ("b", 1)]).signals, p.2 ∉ ([] : List Nat))
    ∧ ∃ closed2,
        cancelAll ⟨[("a", 0), ("b", 1)]⟩ [] = some (⟨[]⟩, closed2)
        ∧ (∀ c ∈ chansOf (Canceller.mk [("a", 0), ("b", 1)]).signals,
            closed2.count c = List.count c [] + 1)
        ∧ (∀ c, c ∉ chansOf (Canceller.mk [("a", 0), ("b", 1)]).signals →
            closed2.count c = List.count c [])
        ∧ ((Canceller.mk [("a", 0), ("b", 1)]).signals = [] →
            cancelAll ⟨[("a", 0), ("b", 1)]⟩ [] = some (⟨[("a", 0), ("b", 1)]⟩, [])) :=
  ⟨⟨by decide, by decide⟩,
    cancelAll_closes_each_once_and_empties ⟨[("a", 0), ("b", 1)]⟩ [] (by decide) (by decide)⟩

theorem registerChannel_preserves_inv (s : ProcState) (h : ProcInv s) :
    ProcInv (registerChannel s).1 := by
  obtain ⟨hk, hc, hnc, hcl, hcb, hclb, hks⟩ := h
  have hfkey : uuidModel s.nextKey ∉ keysOf s.canc.signals := by
    intro hmem
    obtain ⟨p, hp, hpk⟩ := List.mem_map.mp hmem
    obtain ⟨n, hn, hpn⟩ := hks p hp
    have := uuidModel_injective n s.nextKey (by rw [← hpn, hpk])
    omega
  have hins : mapInsert (uuidModel s.nextKey) s.nextChan s.canc.signals
      = s.canc.signals ++ [(uuidModel s.nextKey, s.nextChan)] :=
    mapInsert_of_not_mem_keys _ _ _ hfkey
  refine ⟨?_, ?_, ?_, hcl, ?_, ?_, ?_⟩
  · show (keysOf (mapInsert _ _ _)).Nodup
    rw [hins]
    simp only [keysOf, List.map_append, List.map_cons, List.map_nil]
    rw [List.nodup_append_comm]
    exact List.nodup_cons.mpr ⟨hfkey, hk⟩
  · show (chansOf (mapInsert _ _ _)).Nodup
    rw [hins]
    simp only [chansOf, List.map_append, List.map_cons, List.map_nil]
    rw [List.nodup_append_comm]
    refine List.nodup_cons.mpr ⟨?_, hc⟩
    intro hmem
    obtain ⟨p, hp, hpc⟩ := List.mem_map.mp hmem
    have := hcb p hp
    omega
  · show ∀ p ∈ mapInsert _ _ _, p.2 ∉ (registerChannel s).1.closed
    rw [hins]
    intro p hp
    rcases List.mem_append.mp hp with hold | hnew
    · exact hnc p hold
    · have hpe : p = (uuidModel s.nextKey, s.nextChan) := by simpa using hnew
      subst hpe
      intro hmem
      have := hclb _ hmem
      omega
  · show ∀ p ∈ mapInsert _ _ _, p.2 < s.nextChan + 1
    rw [hins]
    intro p hp
    rcases List.mem_append.mp hp with hold | hnew
    · have := hcb p hold
      omega
    · have hpe : p = (uuidModel s.nextKey, s.nextChan) := by simpa using hnew
      subst hpe
      omega
  · show ∀ c ∈ s.closed, c < s.nextChan + 1
    intro c hmem
    have := hclb c hmem
    omega
  · show ∀ p ∈ mapInsert _ _ _, ∃ n, n < s.nextKey + 1 ∧ p.1 = uuidModel n
    rw [hins]
    intro p hp
    rcases List.mem_append.mp hp with hold | hnew
    · obtain ⟨n, hn, hpn⟩ := hks p hold
      exact ⟨n, by omega, hpn⟩
    · have hpe : p = (uuidModel s.nextKey, s.nextChan) := by simpa using hnew
      subst hpe
      exact ⟨s.nextKey, by omega, rfl⟩

theorem procCancelAll_preserves_inv (s : ProcState) (h : ProcInv s) :
    ∃ s2, procCancelAll s = some s2 ∧ ProcInv s2 := by
  obtain ⟨hk, hc, hnc, hcl, hcb, hclb, hks⟩ := h
  refine ⟨⟨⟨[]⟩, (chansOf s.canc.signals).reverse ++ s.closed, s.nextChan, s.nextKey⟩, ?_, ?_⟩
  · simp only [procCancelAll, cancelAll]
    rw [cancelAllAux_eq _ _ hc hnc]
  · refine ⟨by simp [keysOf], by simp [chansOf], by simp, ?_, by simp, ?_, by simp⟩
    · refine List.Nodup.append (List.nodup_reverse.mpr hc) hcl ?_
      intro a hna hmem
      obtain ⟨p, hp, hpc⟩ := List.mem_map.mp (List.mem_reverse.mp hna)
      exact hnc p hp (hpc ▸ hmem)
    · intro c hmem
      rcases List.mem_append.mp hmem with hrev | hold
      · obtain ⟨p, hp, hpc⟩ := List.mem_map.mp (List.mem_reverse.mp hrev)
        exact hpc ▸ hcb p hp
      · exact hclb c hold

/-- C3: the registry invariant — every entry in the map holds a channel
not yet notified, entries are a map (distinct keys) holding distinct
channels, and no channel is ever closed twice — is preserved by both
registry operations (registration of a fresh channel under a fresh
identifier, and cancelAll), and under the invariant neither operation can
fail: in particular cancelAll never closes a channel twice (no `none`,
which models the double-close panic). -/
theorem registryOps_preserve_invariant (s : ProcState) (h : ProcInv s) (op : RegOp) :
    ∃ s2, applyOp op s = some s2 ∧ ProcInv s2 := by
  cases op with
  | register => exact ⟨_, rfl, registerChannel_preserves_inv s h⟩
  | cancel => exact procCancelAll_preserves_inv s h

/-- Witness for C3 at the initial (post-init) state. -/
theorem registryOps_preserve_invariant_witness :
    ProcInv initialState
    ∧ ∃ s2, applyOp RegOp.register initialState = some s2 ∧ ProcInv s2 :=
  ⟨by decide, registryOps_preserve_invariant initialState (by decide) RegOp.register⟩

/-- The trace of a successful invocation as a flat concatenation of its
five phases. -/
theorem AwaitKillSignals_ok_trace_parts (sigs : List OSSignal) (runnerFuncs : List Nat)
    (wake : WakeSource) (s : ProcState) :
    (AwaitKillSignals SubResult.ok sigs runnerFuncs wake s).2 =
      [Event.subscribed sigs, Event.registered (uuidModel s.nextKey) s.nextChan]
        ++ runnerFuncs.map Event.runnerInvoked
        ++ [Event.woke wake]
        ++ runnerFuncs.reverse.map Event.shutdownCalled
        ++ [Event.returned] := by
  rw [AwaitKillSignals_ok_trace]
  simp [List.append_assoc]

/-- C1: after the wake condition fires, every collected shutdown callback
is executed exactly once, in the reverse of the order the runners were
invoked (the executed shutdown sequence is exactly the reversed runner
list), and the invocation returns only after all shutdown callbacks have
completed (the return event is the last event of the trace, after the
whole shutdown block). -/
theorem AwaitKillSignals_shutdowns_reversed_before_return
    (sigs : List OSSignal) (runnerFuncs : List Nat) (wake : WakeSource) (s : ProcState) :
    shutdownSeq (AwaitKillSignals SubResult.ok sigs runnerFuncs wake s).2 = runnerFuncs.reverse
    ∧ ((AwaitKillSignals SubResult.ok sigs runnerFuncs wake s).2).getLast? = some Event.returned
    ∧ ∃ pre, (AwaitKillSignals SubResult.ok sigs runnerFuncs wake s).2
        = pre ++ (runnerFuncs.reverse.map Event.shutdownCalled ++ [Event.returned])
        ∧ shutdownSeq pre = [] := by
  refine ⟨?_, ?_, ?_⟩
  · rw [AwaitKillSignals_ok_trace_parts]
    rw [shutdownSeq_append, shutdownSeq_append, shutdownSeq_append, shutdownSeq_append,
      shutdownSeq_map_runnerInvoked, shutdownSeq_map_shutdownCalled]
    simp [shutdownSeq]
  · have hsplit : (AwaitKillSignals SubResult.ok sigs runnerFuncs wake s).2 =
        ([Event.subscribed sigs, Event.registered (uuidModel s.nextKey) s.nextChan]
          ++ runnerFuncs.map Event.runnerInvoked
          ++ [Event.woke wake]
          ++ runnerFuncs.reverse.map Event.shutdownCalled) ++ [Event.returned] :=
      AwaitKillSignals_ok_trace_parts sigs runnerFuncs wake s
    rw [hsplit, List.getLast?_concat]
  · refine ⟨[Event.subscribed sigs, Event.registered (uuidModel s.nextKey) s.nextChan]
      ++ runnerFuncs.map Event.runnerInvoked ++ [Event.woke wake], ?_, ?_⟩
    · rw [AwaitKillSignals_ok_trace_parts]
      simp [List.append_assoc]
    · rw [shutdownSeq_append, shutdownSeq_append, shutdownSeq_map_runnerInvoked]
      simp [shutdownSeq]

/-- C4: a woken invocation returns exactly once and only after the wake
event, whichever of the two raced sources (a relayed OS signal or the
finish channel closed by the registry) fired it: the trace contains the
return event exactly once, as its last event, strictly after the single
wake event, for every wake source the subscription admits. -/
theorem AwaitKillSignals_returns_once_only_after_wake
    (sigs : List OSSignal) (runnerFuncs : List Nat) (wake : WakeSource) (s : ProcState)
    (_hwake : canWake sigs wake = true) :
    ((AwaitKillSignals SubResult.ok sigs runnerFuncs wake s).2).count Event.returned = 1
    ∧ ((AwaitKillSignals SubResult.ok sigs runnerFuncs wake s).2).count (Event.woke wake) = 1
    ∧ ∃ pre post,
        (AwaitKillSignals SubResult.ok sigs runnerFuncs wake s).2
          = pre ++ Event.woke wake :: post
        ∧ pre.count Event.returned = 0
        ∧ post.count Event.returned = 1 := by
  have hr0 : ∀ rs : List Nat, (rs.map Event.runnerInvoked).count Event.returned = 0 :=
    count_event_map _ _ (fun r => by simp)
  have hs0 : ∀ rs : List Nat, (rs.map Event.shutdownCalled).count Event.returned = 0 :=
    count_event_map _ _ (fun r => by simp)
  have hrw : ∀ rs : List Nat, (rs.map Event.runnerInvoked).count (Event.woke wake) = 0 :=
    count_event_map _ _ (fun r => by simp)
  have hsw : ∀ rs : List Nat, (rs.map Event.shutdownCalled).count (Event.woke wake) = 0 :=
    count_event_map _ _ (fun r => by simp)
  refine ⟨?_, ?_, ?_⟩
  · rw [AwaitKillSignals_ok_trace_parts]
    simp [List.count_append, hr0, hs0, List.count_cons]
  · rw [AwaitKillSignals_ok_trace_parts]
    simp [List.count_append, hrw, hsw, List.count_cons]
  · refine ⟨[Event.subscribed sigs, Event.registered (uuidModel s.nextKey) s.nextChan]
      ++ runnerFuncs.map Event.runnerInvoked,
      runnerFuncs.reverse.map Event.shutdownCalled ++ [Event.returned], ?_, ?_, ?_⟩
    · rw [AwaitKillSignals_ok_trace_parts]
      simp [List.append_assoc]
    · simp [List.count_append, hr0]
    · simp [List.count_append, hs0]

/-- Witness for C4: a single-signal subscription woken by the finish
channel. -/
theorem AwaitKillSignals_returns_once_only_after_wake_witness :
    canWake [SIGINT] WakeSource.finishChannel = true
    ∧ (((AwaitKillSignals SubResult.ok [SIGINT] [1, 2] WakeSource.finishChannel
          initialState).2).count Event.returned = 1
      ∧ ((AwaitKillSignals SubResult.ok [SIGINT] [1, 2] WakeSource.finishChannel
          initialState).2).count (Event.woke WakeSource.finishChannel) = 1
      ∧ ∃ pre post,
          (AwaitKillSignals SubResult.ok [SIGINT] [1, 2] WakeSource.finishChannel
            initialState).2 = pre ++ Event.woke WakeSource.finishChannel :: post
          ∧ pre.count Event.returned = 0
          ∧ post.count Event.returned = 1) :=
  ⟨by decide,
    AwaitKillSignals_returns_once_only_after_wake [SIGINT] [1, 2] WakeSource.finishChannel
      initialState (by decide)⟩

/-- C5: each invocation registers its finish channel under a freshly drawn
identifier: registration is total (it always stores the channel, and a
lookup for the identifier finds it), and any two calls drawing from
different points of the identifier supply obtain distinct identifiers. -/
theorem registerChannel_stores_fresh_unique (s t : ProcState) (h : s.nextKey < t.nextKey) :
    (registerChannel s).2.1 = uuidModel s.nextKey
    ∧ lookupKey (registerChannel s).2.1 ((registerChannel s).1).canc.signals
        = some (registerChannel s).2.2
    ∧ (registerChannel t).2.1 ≠ (registerChannel s).2.1 := by
  refine ⟨rfl, ?_, ?_⟩
  · exact lookupKey_mapInsert_self (uuidModel s.nextKey) s.nextChan s.canc.signals
  · intro heq
    have := uuidModel_injective t.nextKey s.nextKey heq
    omega

/-- Witness for C5: the first two registrations of the process. -/
theorem registerChannel_stores_fresh_unique_witness :
    initialState.nextKey < ((registerChannel initialState).1).nextKey
    ∧ ((registerChannel initialState).2.1 = uuidModel initialState.nextKey
      ∧ lookupKey (registerChannel initialState).2.1
          ((registerChannel initialState).1).canc.signals
          = some (registerChannel initialState).2.2
      ∧ (registerChannel ((registerChannel initialState).1)).2.1
          ≠ (registerChannel initialState).2.1) :=
  ⟨by decide,
    registerChannel_stores_fresh_unique initialState ((registerChannel initialState).1)
      (by decide)⟩

/-- C6: AwaitKillSignal equals AwaitKillSignals on the default signal set
SIGINT, SIGTERM with the same runners (and agrees with the specification
side form built from the default signal set), and the deprecated aliases
KillSignal and Signals are pure pass-throughs to AwaitKillSignal and
AwaitKillSignals with no independent behaviour. -/
theorem wrappers_are_pass_throughs (sub : SubResult) (runner : Nat)
    (runnerFuncs : List Nat) (sigs : List OSSignal) (wake : WakeSource) (s : ProcState) :
    AwaitKillSignal sub runnerFuncs wake s = awaitKillSignalSpec sub runnerFuncs wake s
    ∧ AwaitKillSignal sub runnerFuncs wake s
        = AwaitKillSignals sub [SIGINT, SIGTERM] runnerFuncs wake s
    ∧ KillSignal sub runner wake s = AwaitKillSignal sub [runner] wake s
    ∧ Signals sub runner sigs wake s = AwaitKillSignals sub sigs [runner] wake s :=
  ⟨rfl, rfl, rfl, rfl⟩

/-- C7: the orchestrator invokes each runner in the given order exactly
once (the invocation sequence of the trace is the runner list itself), and
every runner has been invoked before the blocking wait begins: the trace
splits at the wake event with all runner invocations strictly before it
and none after. -/
theorem AwaitKillSignals_runners_in_order_before_wait
    (sigs : List OSSignal) (runnerFuncs : List Nat) (wake : WakeSource) (s : ProcState) :
    runnerSeq (AwaitKillSignals SubResult.ok sigs runnerFuncs wake s).2 = runnerFuncs
    ∧ ∃ pre post,
        (AwaitKillSignals SubResult.ok sigs runnerFuncs wake s).2
          = pre ++ Event.woke wake :: post
        ∧ runnerSeq pre = runnerFuncs
        ∧ runnerSeq post = [] := by
  refine ⟨?_, ?_⟩
  · rw [AwaitKillSignals_ok_trace_parts]
    rw [runnerSeq_append, runnerSeq_append, runnerSeq_append, runnerSeq_append,
      runnerSeq_map_runnerInvoked, runnerSeq_map_shutdownCalled]
    simp [runnerSeq]
  · refine ⟨[Event.subscribed sigs, Event.registered (uuidModel s.nextKey) s.nextChan]
      ++ runnerFuncs.map Event.runnerInvoked,
      runnerFuncs.reverse.map Event.shutdownCalled ++ [Event.returned], ?_, ?_, ?_⟩
    · rw [AwaitKillSignals_ok_trace_parts]
      simp [List.append_assoc]
    · rw [runnerSeq_append, runnerSeq_map_runnerInvoked]
      simp [runnerSeq]
    · rw [runnerSeq_append, runnerSeq_map_shutdownCalled]
      simp [runnerSeq]

/-- C8: when an invocation is woken by an OS signal, its registry entry is
not removed on that exit path: after the invocation its identifier still
maps to its finish channel, every other key maps exactly as before, and
the close record is untouched — the entry is abandoned until a future
cancelAll sweeps it. -/
theorem AwaitKillSignals_osSignal_keeps_registry_entry
    (sigs : List OSSignal) (runnerFuncs : List Nat) (g : OSSignal) (s : ProcState) :
    lookupKey (uuidModel s.nextKey)
        (((AwaitKillSignals SubResult.ok sigs runnerFuncs (WakeSource.osSignal g) s).1).canc.signals)
      = some s.nextChan
    ∧ (((AwaitKillSignals SubResult.ok sigs runnerFuncs (WakeSource.osSignal g) s).1).canc.signals
        = mapInsert (uuidModel s.nextKey) s.nextChan s.canc.signals)
    ∧ (∀ k, k ≠ uuidModel s.nextKey →
        lookupKey k
            (((AwaitKillSignals SubResult.ok sigs runnerFuncs (WakeSource.osSignal g) s).1).canc.signals)
          = lookupKey k s.canc.signals)
    ∧ ((AwaitKillSignals SubResult.ok sigs runnerFuncs (WakeSource.osSignal g) s).1).closed
        = s.closed := by
  refine ⟨?_, rfl, ?_, rfl⟩
  · exact lookupKey_mapInsert_self (uuidModel s.nextKey) s.nextChan s.canc.signals
  · intro k hk
    exact lookupKey_mapInsert_other k (uuidModel s.nextKey) s.nextChan s.canc.signals hk

/-- Witness for C8 at a concrete invocation woken by signal 9. -/
theorem AwaitKillSignals_osSignal_keeps_registry_entry_witness :
    lookupKey (uuidModel initialState.nextKey)
        (((AwaitKillSignals SubResult.ok [SIGINT] [1] (WakeSource.osSignal 9)
          initialState).1).canc.signals)
      = some initialState.nextChan
    ∧ (((AwaitKillSignals SubResult.ok [SIGINT] [1] (WakeSource.osSignal 9)
          initialState).1).canc.signals
        = mapInsert (uuidModel initialState.nextKey) initialState.nextChan
            initialState.canc.signals)
    ∧ (∀ k, k ≠ uuidModel initialState.nextKey →
        lookupKey k
            (((AwaitKillSignals SubResult.ok [SIGINT] [1] (WakeSource.osSignal 9)
              initialState).1).canc.signals)
          = lookupKey k initialState.canc.signals)
    ∧ ((AwaitKillSignals SubResult.ok [SIGINT] [1] (WakeSource.osSignal 9)
        initialState).1).closed = initialState.closed :=
  AwaitKillSignals_osSignal_keeps_registry_entry [SIGINT] [1] 9 initialState

/-- C9: if the OS signal subscription cannot be established the invocation
fails immediately: the subscription precedes the registration and the
runner loop, so no runner is invoked, no shutdown runs, and the process
state (registry included) is untouched. -/
theorem AwaitKillSignals_subscription_failure_starts_no_runners
    (sigs : List OSSignal) (runnerFuncs : List Nat) (wake : WakeSource) (s : ProcState) :
    AwaitKillSignals SubResult.failed sigs runnerFuncs wake s = (s, [Event.subscribeFailed])
    ∧ runnerSeq (AwaitKillSignals SubResult.failed sigs runnerFuncs wake s).2 = []
    ∧ shutdownSeq (AwaitKillSignals SubResult.failed sigs runnerFuncs wake s).2 = []
    ∧ (AwaitKillSignals SubResult.failed sigs runnerFuncs wake s).1 = s :=
  ⟨rfl, rfl, rfl, rfl⟩

/-- C10: with an empty signal set the subscription relays every incoming
OS signal (the documented `signal.Notify` behaviour with no arguments), so
such an invocation can be woken by any delivered OS signal, not only by
the finish channel, and then proceeds through shutdown to its return. -/
theorem AwaitKillSignals_empty_signal_set_watches_all
    (g : OSSignal) (runnerFuncs : List Nat) (s : ProcState) :
    notifyRelays [] g = true
    ∧ canWake [] (WakeSource.osSignal g) = true
    ∧ Event.woke (WakeSource.osSignal g)
        ∈ (AwaitKillSignals SubResult.ok [] runnerFuncs (WakeSource.osSignal g) s).2
    ∧ ((AwaitKillSignals SubResult.ok [] runnerFuncs (WakeSource.osSignal g) s).2).getLast?
        = some Event.returned := by
  refine ⟨rfl, rfl, ?_, ?_⟩
  · rw [AwaitKillSignals_ok_trace_parts]
    simp
  · have hsplit : (AwaitKillSignals SubResult.ok [] runnerFuncs (WakeSource.osSignal g) s).2 =
        ([Event.subscribed [], Event.registered (uuidModel s.nextKey) s.nextChan]
          ++ runnerFuncs.map Event.runnerInvoked
          ++ [Event.woke (WakeSource.osSignal g)]
          ++ runnerFuncs.reverse.map Event.shutdownCalled) ++ [Event.returned] :=
      AwaitKillSignals_ok_trace_parts [] runnerFuncs (WakeSource.osSignal g) s
    rw [hsplit, List.getLast?_concat]
